import Mathlib

/-!
Shallow embedding of `src/vedirect.py` (the `VEDirect` VE.Direct text-protocol
decoder).  A serial line is modelled as a list of byte values (`List Nat`,
each entry the value of one byte, terminator bytes included, exactly what
`serial.Serial.readline` returns).  The byte stream consumed by one or more
`refresh` calls is modelled as a finite `List Line`; the end of the list
stands for the transport yielding empty reads (`b''`, the pyserial timeout
result) from then on.  Python exceptions are modelled as explicit outcome
constructors, and the mutable `self._data` dict as an explicit association
list threaded through the functions.
-/

set_option autoImplicit false

abbrev Line := List Nat

/-- Byte values of an ASCII string; used to build concrete test lines. -/
def asciiL (s : String) : List Nat := s.data.map Char.toNat

/-- `frame.startswith(p)` on bytes: first argument is the leading pattern. -/
def bstartswith : List Nat → List Nat → Bool
  | [], _ => true
  | _ :: _, [] => false
  | p :: ps, b :: bs => p == b && bstartswith ps bs

def pidBytes : List Nat := asciiL "PID"

def checksumBytes : List Nat := asciiL "Checksum"

/-- `VEDirect.check_frame_checksum`: running modulo-256 sum of every byte of
every frame, accepting exactly when the final sum is `0`. -/
def check_frame_checksum (frames : List Line) : Bool :=
  (frames.foldl (fun chksum frame =>
    frame.foldl (fun c ch => (c + ch) % 256) chksum) 0) == 0

/-- The first `while True` loop of `VEDirect._get_data`: read lines until one
starts with `b'PID'`; that line opens the PDU.  `none` means the stream is
exhausted without a `PID` line: every further `readline` yields `b''`, which
does not start with `b'PID'`, so the Python loop never exits. -/
def seekStart : List Line → Option (Line × List Line)
  | [] => none
  | f :: rest => if bstartswith pidBytes f then some (f, rest) else seekStart rest

/-- The second `while True` loop of `VEDirect._get_data`: accumulate lines
until one starts with `b'PID'` or an empty read occurs; the breaking line is
consumed but not appended.  Returns (accumulated lines, remaining stream). -/
def accumulate : List Line → List Line × List Line
  | [] => ([], [])
  | f :: rest =>
    if bstartswith pidBytes f || f.isEmpty then ([], rest)
    else
      let p := accumulate rest
      (f :: p.1, p.2)

inductive GetDataResult where
  | ok (pdu : List Line) (rest : List Line)
  | checksumFail (rest : List Line)
  | seekForever
  deriving DecidableEq

/-- `VEDirect._get_data` over the modelled stream: find the frame start,
accumulate the PDU, then validate the checksum (raising
`InvalidChecksumException`, here `checksumFail`, on rejection).
`seekForever` records that the seek loop consumed the whole stream without a
`PID` line and therefore never terminates in the Python code. -/
def get_data (stream : List Line) : GetDataResult :=
  match seekStart stream with
  | none => .seekForever
  | some (pid, rest) =>
    let acc := accumulate rest
    let pdu := pid :: acc.1
    if check_frame_checksum pdu then .ok pdu acc.2 else .checksumFail acc.2

/-- Python's `dict` of strings, as an association list with unique keys in
insertion order. -/
abbrev FieldRecord := List (String × String)

/-- `d[k] = v` on a Python dict: replace in place if the key exists, else
append at the end. -/
def dinsert : FieldRecord → String → String → FieldRecord
  | [], k, v => [(k, v)]
  | (k0, v0) :: rest, k, v =>
    if k0 = k then (k, v) :: rest else (k0, v0) :: dinsert rest k v

/-- `d[k]` lookup on a Python dict. -/
def dget : FieldRecord → String → Option String
  | [], _ => none
  | (k0, v0) :: rest, k => if k0 = k then some v0 else dget rest k

/-- `d.get(k, dflt)` on a Python dict. -/
def dgetD (d : FieldRecord) (k dflt : String) : String := (dget d k).getD dflt

/-- The byte values stripped by `bytes.strip()`: ASCII whitespace. -/
def isSpaceByte (b : Nat) : Bool :=
  b == 32 || b == 9 || b == 10 || b == 13 || b == 11 || b == 12

/-- `frame.strip()` on bytes: drop ASCII whitespace from both ends. -/
def bstrip (l : List Nat) : List Nat :=
  ((l.dropWhile isSpaceByte).reverse.dropWhile isSpaceByte).reverse

/-- A UTF-8 continuation byte (`0x80`–`0xBF`). -/
def contByte (b : Nat) : Bool := 128 ≤ b && b ≤ 191

/-- Valid second byte of a three-byte UTF-8 sequence with lead `b`
(`0xE0` restricts to `0xA0`–`0xBF`, `0xED` to `0x80`–`0x9F`). -/
def cont2of3 (b b2 : Nat) : Bool :=
  if b == 224 then 160 ≤ b2 && b2 ≤ 191
  else if b == 237 then 128 ≤ b2 && b2 ≤ 159
  else contByte b2

/-- Valid second byte of a four-byte UTF-8 sequence with lead `b`
(`0xF0` restricts to `0x90`–`0xBF`, `0xF4` to `0x80`–`0x8F`). -/
def cont2of4 (b b2 : Nat) : Bool :=
  if b == 240 then 144 ≤ b2 && b2 ≤ 191
  else if b == 244 then 128 ≤ b2 && b2 ≤ 143
  else contByte b2

/-- Worker for `decodeUtf8Ignore`; the fuel argument only bounds the
recursion depth (each step consumes at least one byte, so a fuel equal to the
input length never runs out). -/
def decodeUtf8Aux : Nat → List Nat → List Char
  | 0, _ => []
  | _ + 1, [] => []
  | fuel + 1, b :: rest =>
    if b ≤ 127 then Char.ofNat b :: decodeUtf8Aux fuel rest
    else if 194 ≤ b && b ≤ 223 then
      match rest with
      | [] => []
      | b2 :: rest2 =>
        if contByte b2 then
          Char.ofNat ((b - 192) * 64 + (b2 - 128)) :: decodeUtf8Aux fuel rest2
        else decodeUtf8Aux fuel rest
    else if 224 ≤ b && b ≤ 239 then
      match rest with
      | [] => []
      | b2 :: rest2 =>
        if cont2of3 b b2 then
          match rest2 with
          | [] => []
          | b3 :: rest3 =>
            if contByte b3 then
              Char.ofNat ((b - 224) * 4096 + (b2 - 128) * 64 + (b3 - 128)) ::
                decodeUtf8Aux fuel rest3
            else decodeUtf8Aux fuel rest2
        else decodeUtf8Aux fuel rest
    else if 240 ≤ b && b ≤ 244 then
      match rest with
      | [] => []
      | b2 :: rest2 =>
        if cont2of4 b b2 then
          match rest2 with
          | [] => []
          | b3 :: rest3 =>
            if contByte b3 then
              match rest3 with
              | [] => []
              | b4 :: rest4 =>
                if contByte b4 then
                  Char.ofNat ((b - 240) * 262144 + (b2 - 128) * 4096 +
                    (b3 - 128) * 64 + (b4 - 128)) :: decodeUtf8Aux fuel rest4
                else decodeUtf8Aux fuel rest3
            else decodeUtf8Aux fuel rest2
        else decodeUtf8Aux fuel rest
    else decodeUtf8Aux fuel rest

/-- `bytes.decode('utf-8', errors='ignore')`: decode UTF-8, skipping
malformed bytes instead of failing.  A truncated but so-far-valid multi-byte
sequence at the end of the input is dropped, matching CPython. -/
def decodeUtf8Ignore (l : List Nat) : List Char := decodeUtf8Aux l.length l

/-- `str.split('\t')`: split on every tab, keeping empty parts. -/
def splitTab : List Char → List (List Char)
  | [] => [[]]
  | c :: rest =>
    if c = '\t' then [] :: splitTab rest
    else
      match splitTab rest with
      | [] => [[c]]
      | s :: ss => (c :: s) :: ss

/-- `VEDirect.parse_pdu`, threading the mutable `self._data` dict.  For each
frame: a raw `b'Checksum'` prefix skips the frame; otherwise the frame is
stripped and decoded, a frame without a tab is skipped, and
`key, value = key_value.split('\t')` inserts the pair — unless the split
yields more than two parts, in which case the tuple unpacking raises
`ValueError` (`Except.error`, carrying the partially updated dict). -/
def parse_pdu : List Line → FieldRecord → Except FieldRecord FieldRecord
  | [], data => .ok data
  | f :: rest, data =>
    if bstartswith checksumBytes f then parse_pdu rest data
    else
      let kv := decodeUtf8Ignore (bstrip f)
      if '\t' ∈ kv then
        match splitTab kv with
        | [k, v] => parse_pdu rest (dinsert data (String.mk k) (String.mk v))
        | _ => .error data
      else parse_pdu rest data

inductive Outcome where
  | ok (data : FieldRecord) (rest : List Line)
  | checksumError (data : FieldRecord) (rest : List Line)
  | valueError (data : FieldRecord) (rest : List Line)
  | seekForever
  deriving DecidableEq

/-- `VEDirect.refresh`: run `_get_data`, then `parse_pdu` on the returned
frames.  `InvalidChecksumException` escapes before `parse_pdu` runs, so the
dict is the untouched input in that case. -/
def refresh (stream : List Line) (data : FieldRecord) : Outcome :=
  match get_data stream with
  | .seekForever => .seekForever
  | .checksumFail rest => .checksumError data rest
  | .ok pdu rest =>
    match parse_pdu pdu data with
    | .ok d => .ok d rest
    | .error d => .valueError d rest

/-! Typed accessor layer.  Python's numeric conversions are modelled as
follows: `int(s)` and `int(s, 16)` accept surrounding ASCII whitespace, an
optional sign, and a non-empty digit run (`0x`/`0X` optionally leading the
hex digits); digit-group underscores are not modelled.  `float(s)` is
modelled over exact rationals (sign, integer and fraction digits, optional
decimal exponent); the values the claims touch are exactly representable. -/

def isWSChar (c : Char) : Bool :=
  c == ' ' || c == '\t' || c == '\n' || c == '\r' ||
    c == Char.ofNat 11 || c == Char.ofNat 12

def stripWS (l : List Char) : List Char :=
  ((l.dropWhile isWSChar).reverse.dropWhile isWSChar).reverse

def splitSign : List Char → Bool × List Char
  | '+' :: r => (false, r)
  | '-' :: r => (true, r)
  | r => (false, r)

def isDigitChar (c : Char) : Bool := '0' ≤ c && c ≤ '9'

def natOfDigits (ds : List Char) : Nat :=
  ds.foldl (fun a c => a * 10 + (c.toNat - 48)) 0

def isHexDigitChar (c : Char) : Bool :=
  isDigitChar c || ('a' ≤ c && c ≤ 'f') || ('A' ≤ c && c ≤ 'F')

def hexVal (c : Char) : Nat :=
  if isDigitChar c then c.toNat - 48
  else if 'a' ≤ c && c ≤ 'f' then c.toNat - 87
  else c.toNat - 55

def natOfHexDigits (ds : List Char) : Nat :=
  ds.foldl (fun a c => a * 16 + hexVal c) 0

/-- Python `int(s)` (base 10), `none` modelling `ValueError`. -/
def pyInt (s : String) : Option Int :=
  let l := stripWS s.data
  let p := splitSign l
  if p.2.isEmpty || !p.2.all isDigitChar then none
  else some (if p.1 then -(natOfDigits p.2 : Int) else (natOfDigits p.2 : Int))

/-- Python `int(s, 16)`, `none` modelling `ValueError`; an optional `0x` or
`0X` may lead the digits. -/
def pyIntHex (s : String) : Option Int :=
  let l := stripWS s.data
  let p := splitSign l
  let ds := match p.2 with
    | '0' :: 'x' :: r => r
    | '0' :: 'X' :: r => r
    | r => r
  if ds.isEmpty || !ds.all isHexDigitChar then none
  else some (if p.1 then -(natOfHexDigits ds : Int) else (natOfHexDigits ds : Int))

/-- Python `float(s)` over exact rationals, `none` modelling `ValueError`. -/
def pyFloat (s : String) : Option ℚ :=
  let l := stripWS s.data
  let p := splitSign l
  let ip := (p.2.takeWhile isDigitChar, p.2.dropWhile isDigitChar)
  let fp := match ip.2 with
    | '.' :: r => (r.takeWhile isDigitChar, r.dropWhile isDigitChar)
    | r => ([], r)
  if ip.1.isEmpty && fp.1.isEmpty then none
  else
    let mant : ℚ :=
      (natOfDigits ip.1 : ℚ) + (natOfDigits fp.1 : ℚ) / (10 : ℚ) ^ fp.1.length
    let signed : ℚ := if p.1 then -mant else mant
    match fp.2 with
    | [] => some signed
    | 'e' :: r =>
      let q := splitSign r
      if q.2.isEmpty || !q.2.all isDigitChar then none
      else some (if q.1 then signed / (10 : ℚ) ^ natOfDigits q.2
                 else signed * (10 : ℚ) ^ natOfDigits q.2)
    | 'E' :: r =>
      let q := splitSign r
      if q.2.isEmpty || !q.2.all isDigitChar then none
      else some (if q.1 then signed / (10 : ℚ) ^ natOfDigits q.2
                 else signed * (10 : ℚ) ^ natOfDigits q.2)
    | _ => none

/-- `mV(val)`: `float(val) / 1000`. -/
def mV (val : String) : Option ℚ := (pyFloat val).map (· / 1000)

/-- `mA(val)`: `float(val) / 1000`. -/
def mA (val : String) : Option ℚ := (pyFloat val).map (· / 1000)

inductive MPPTState where
  | Off
  | Limited
  | Active
  deriving DecidableEq

/-- `MPPTState(n)`: the enum constructor, raising `ValueError` (`none`) for a
code outside the enum's values `{0, 1, 2}`. -/
def MPPTState.ofInt : Int → Option MPPTState := fun n =>
  if n = 0 then some .Off
  else if n = 1 then some .Limited
  else if n = 2 then some .Active
  else none

/-- `VEDirect.battery_volts`: `mV(self._data.get('V', '0'))`. -/
def battery_volts (data : FieldRecord) : Option ℚ := mV (dgetD data "V" "0")

/-- `VEDirect.battery_amps`: `mA(self._data.get('I', '0'))`. -/
def battery_amps (data : FieldRecord) : Option ℚ := mA (dgetD data "I" "0")

/-- `VEDirect.device_MPPT_state`: `MPPTState(int(self._data.get('MPPT', '0')))`.
`none` models either conversion raising `ValueError`. -/
def device_MPPT_state (data : FieldRecord) : Option MPPTState :=
  (pyInt (dgetD data "MPPT" "0")).bind MPPTState.ofInt

/-- The `cs_states` table local to `VEDirect.state_of_operation`. -/
def cs_states : List (Int × String) :=
  [(0, "Off"), (2, "Fault"), (3, "Bulk"), (4, "Absorption"), (5, "Float")]

/-- `VEDirect.state_of_operation`: `cs_states.get(int(self._data.get('CS', '0')),
'Unknown')`; `none` models `int` raising `ValueError` on a non-numeric value. -/
def state_of_operation (data : FieldRecord) : Option String :=
  (pyInt (dgetD data "CS" "0")).map (fun cs => (cs_states.lookup cs).getD "Unknown")

/-- `VEDirect.OFF_REASON_CODES`, in dict insertion order. -/
def OFF_REASON_CODES : List (Int × String) :=
  [(1, "No input power"),
   (2, "Switched off (power switch)"),
   (4, "Switched off (device mode register)"),
   (8, "Remote input"),
   (16, "Protection active"),
   (32, "Paygo active"),
   (64, "Boost mode"),
   (128, "Extended bulk active")]

/-- `VEDirect.off_reason`: parse `OR` as hex (`0` on `ValueError`), collect
the reason names whose bitmask intersects the code, and fall back to the
singleton `['Unknown']` when none matched. -/
def off_reason (data : FieldRecord) : List String :=
  let orCode : Int := (pyIntHex (dgetD data "OR" "0")).getD 0
  let reasons := OFF_REASON_CODES.filterMap
    (fun p => if Int.land orCode p.1 ≠ 0 then some p.2 else none)
  if reasons.isEmpty then ["Unknown"] else reasons

/-- The key a line contributes when inserted: the part of its stripped,
decoded text before the first tab (head of the tab-split). -/
def keyOf (f : Line) : String :=
  String.mk ((splitTab (decodeUtf8Ignore (bstrip f))).headD [])

/-! Concrete VE.Direct data for the instance theorems: three well-formed,
independently checksummed bursts, plus two special PDUs.  Each checksum
value byte is chosen so that the byte sum of its burst is `0 mod 256`. -/

/-- A raw checksum line `Checksum<TAB><value byte><CR><LF>`. -/
def ckLine (b : Nat) : Line := asciiL "Checksum\t" ++ [b, 13, 10]

def burstA : List Line :=
  [asciiL "PID\t0xA057\r\n", asciiL "AA\t1\r\n", ckLine 88]

def burstB : List Line :=
  [asciiL "PID\t0xA057\r\n", asciiL "BB\t2\r\n", ckLine 85]

def burstC : List Line :=
  [asciiL "PID\t0xA057\r\n", asciiL "CC\t3\r\n", ckLine 82]

/-- What remains of `burstB` after a refresh consumed its `PID` line as the
end marker of `burstA`. -/
def restB : List Line := [asciiL "BB\t2\r\n", ckLine 85]

/-- A checksummed PDU whose middle line holds two tab characters. -/
def pduTwoTab : List Line :=
  [asciiL "PID\t0x1\r\n", asciiL "A\tb\tc\r\n", ckLine 168]

/-- A checksummed PDU with a leading-space `Checksum`-keyed field line and a
`Checksumfoo`-keyed line. -/
def pduChk : List Line :=
  [asciiL "PID\t0x1\r\n", asciiL " Checksum\t9\r\n", asciiL "Checksumfoo\tz\r\n",
   ckLine 26]

deriving instance DecidableEq for Except

/-! Helper lemmas. -/

theorem foldl_byte_mod (l : List Nat) : ∀ a : Nat,
    l.foldl (fun c ch => (c + ch) % 256) (a % 256) = (a + l.sum) % 256 := by
  induction l with
  | nil => intro a; simp
  | cons x xs ih =>
    intro a
    simp only [List.foldl_cons, List.sum_cons]
    rw [Nat.mod_add_mod, ih (a + x), Nat.add_assoc]

theorem foldl_frames_mod (frames : List Line) : ∀ a : Nat,
    frames.foldl (fun chksum frame =>
        frame.foldl (fun c ch => (c + ch) % 256) chksum) (a % 256)
      = (a + frames.flatten.sum) % 256 := by
  induction frames with
  | nil => intro a; simp
  | cons f fs ih =>
    intro a
    simp only [List.foldl_cons, List.flatten_cons, List.sum_append]
    rw [foldl_byte_mod f a, ih (a + f.sum), Nat.add_assoc]

theorem check_frame_checksum_eq (frames : List Line) :
    check_frame_checksum frames = (frames.flatten.sum % 256 == 0) := by
  have h := foldl_frames_mod frames 0
  rw [Nat.zero_mod] at h
  rw [check_frame_checksum, h, Nat.zero_add]

theorem dget_dinsert_self (d : FieldRecord) (k v : String) :
    dget (dinsert d k v) k = some v := by
  induction d with
  | nil => simp [dinsert, dget]
  | cons p rest ih =>
    obtain ⟨k0, v0⟩ := p
    by_cases hk : k0 = k
    · simp [dinsert, hk, dget]
    · simp [dinsert, hk, dget, ih]

theorem dget_dinsert_isSome (d : FieldRecord) (k v k2 : String)
    (h : (dget d k2).isSome = true) :
    (dget (dinsert d k v) k2).isSome = true := by
  induction d with
  | nil => simp [dget] at h
  | cons p rest ih =>
    obtain ⟨k0, v0⟩ := p
    by_cases hk : k0 = k
    · rw [dinsert, if_pos hk]
      by_cases h2 : k = k2
      · simp [dget, h2]
      · rw [dget, if_neg h2]
        rw [dget, if_neg (fun e => h2 (hk.symm.trans e))] at h
        exact h
    · rw [dinsert, if_neg hk]
      by_cases h2 : k0 = k2
      · simp [dget, h2]
      · rw [dget, if_neg h2]
        rw [dget, if_neg h2] at h
        exact ih h

theorem parse_pdu_preserves_keys :
    ∀ (frames : List Line) (data d : FieldRecord),
      parse_pdu frames data = Except.ok d →
      ∀ k, (dget data k).isSome = true → (dget d k).isSome = true := by
  intro frames
  induction frames with
  | nil =>
    intro data d h k hk
    simp [parse_pdu] at h
    exact h ▸ hk
  | cons f rest ih =>
    intro data d h k hk
    by_cases hck : bstartswith checksumBytes f = true
    · simp only [parse_pdu, hck, if_true] at h
      exact ih data d h k hk
    · simp only [parse_pdu, hck, if_false, Bool.false_eq_true] at h
      by_cases htab : '\t' ∈ decodeUtf8Ignore (bstrip f)
      · simp only [htab, if_true] at h
        cases hs : splitTab (decodeUtf8Ignore (bstrip f)) with
        | nil => rw [hs] at h; exact absurd h (by simp)
        | cons a t =>
          cases t with
          | nil => rw [hs] at h; exact absurd h (by simp)
          | cons b t2 =>
            cases t2 with
            | nil =>
              rw [hs] at h
              exact ih _ d h k (dget_dinsert_isSome data _ _ k hk)
            | cons c t3 => rw [hs] at h; exact absurd h (by simp)
      · simp only [htab, if_false] at h
        exact ih data d h k hk

theorem seekStart_eq_none (stream : List Line)
    (h : ∀ f ∈ stream, bstartswith pidBytes f = false) :
    seekStart stream = none := by
  induction stream with
  | nil => rfl
  | cons f rest ih =>
    rw [seekStart, h f (by simp)]
    simp only [Bool.false_eq_true, if_false]
    exact ih fun g hg => h g (by simp [hg])

/-- Claim C1: the checksum validator accepts a completed PDU if and only if
the sum of every byte value of every line is `0 mod 256`, and on rejection
`refresh` surfaces the distinct checksum-mismatch condition
(`InvalidChecksumException`, here the `checksumError` outcome). -/
theorem checksum_accept_iff_zero_sum :
    (∀ frames : List Line,
      check_frame_checksum frames = true ↔ frames.flatten.sum % 256 = 0)
    ∧ ∀ (stream : List Line) (data : FieldRecord) (rest : List Line),
        get_data stream = GetDataResult.checksumFail rest →
        refresh stream data = Outcome.checksumError data rest := by
  constructor
  · intro frames
    rw [check_frame_checksum_eq]
    exact beq_iff_eq
  · intro stream data rest h
    rw [refresh, h]

/-- Witness for `checksum_accept_iff_zero_sum` at a stream whose single-line
PDU has byte sum `302 % 256 = 46 ≠ 0`. -/
theorem checksum_accept_iff_zero_sum_inst :
    refresh [asciiL "PID\t1\r\n"] [] = Outcome.checksumError [] [] :=
  checksum_accept_iff_zero_sum.2 [asciiL "PID\t1\r\n"] [] [] (by decide)

/-- Claim C3: a refresh that fails with a checksum mismatch leaves the
backing field mapping exactly as it was: the exception escapes `_get_data`
before `parse_pdu` touches the dict. -/
theorem checksum_failure_preserves_data :
    ∀ (stream : List Line) (data d : FieldRecord) (rest : List Line),
      refresh stream data = Outcome.checksumError d rest → d = data := by
  intro stream data d rest h
  rw [refresh] at h
  cases hg : get_data stream <;> rw [hg] at h
  case seekForever => simp at h
  case checksumFail r =>
    simp at h
    exact h.1.symm
  case ok pdu r =>
    cases hp : parse_pdu pdu data <;> simp [hp] at h

/-- Witness for `checksum_failure_preserves_data`: a checksum-rejected
refresh starting from the dict `[("A", "b")]` returns that very dict. -/
theorem checksum_failure_preserves_data_inst :
    ([("A", "b")] : FieldRecord) = [("A", "b")] :=
  checksum_failure_preserves_data [asciiL "PID\t1\r\n"] [("A", "b")]
    [("A", "b")] [] (by decide)

/-- Claim C10: the checksum verdict depends only on the multiset of byte
values of the whole PDU, so permuting lines, permuting bytes within a line,
or re-splitting the same bytes into different lines never changes it. -/
theorem checksum_depends_only_on_byte_multiset :
    ∀ f1 f2 : List Line, f1.flatten.Perm f2.flatten →
      check_frame_checksum f1 = check_frame_checksum f2 := by
  intro f1 f2 h
  rw [check_frame_checksum_eq, check_frame_checksum_eq, h.sum_eq]

/-- Witness for `checksum_depends_only_on_byte_multiset`: the bytes
`1, 2, 3` split as `[[1, 2], [3]]` and re-split reordered as `[[3], [2, 1]]`
get the same verdict. -/
theorem checksum_depends_only_on_byte_multiset_inst :
    check_frame_checksum [[1, 2], [3]] = check_frame_checksum [[3], [2, 1]] :=
  checksum_depends_only_on_byte_multiset [[1, 2], [3]] [[3], [2, 1]] (by decide)

/-- Claim C2 fails on the code.  With exactly the two consecutive
well-formed, independently checksummed bursts `burstA ++ burstB`, the first
refresh completes with `burstA`'s fields but consumes `burstB`'s `PID` line
as its end marker, so the second refresh finds no frame start and never
terminates.  With a third burst present, the second refresh returns
`burstC`'s fields — never `burstB`'s — and merges them into the old dict, so
the key `AA`, exclusive to the first burst and absent from every later one,
is still present afterwards, while `BB` never appears. -/
theorem refresh_two_bursts_cex :
    (refresh (burstA ++ burstB) [] =
        Outcome.ok [("PID", "0xA057"), ("AA", "1")] restB
      ∧ refresh restB [("PID", "0xA057"), ("AA", "1")] = Outcome.seekForever)
    ∧ refresh (burstA ++ burstB ++ burstC) [] =
        Outcome.ok [("PID", "0xA057"), ("AA", "1")] (restB ++ burstC)
    ∧ refresh (restB ++ burstC) [("PID", "0xA057"), ("AA", "1")] =
        Outcome.ok [("PID", "0xA057"), ("AA", "1"), ("CC", "3")] []
    ∧ dget [("PID", "0xA057"), ("AA", "1"), ("CC", "3")] "AA" = some "1"
    ∧ dget [("PID", "0xA057"), ("AA", "1"), ("CC", "3")] "BB" = none := by
  decide

/-- Claim C2 amended: `parse_pdu` writes into the existing dict without
clearing it, so a successful refresh merges the new burst's fields into the
mapping and never removes a key; keys exclusive to an earlier burst persist.
(Moreover the `PID` line of the following burst is consumed as the end
marker, so a second refresh does not parse the immediately following
burst — see `refresh_two_bursts_cex`.) -/
theorem refresh_ok_preserves_keys :
    ∀ (stream : List Line) (data d : FieldRecord) (rest : List Line),
      refresh stream data = Outcome.ok d rest →
      ∀ k, (dget data k).isSome = true → (dget d k).isSome = true := by
  intro stream data d rest h k hk
  rw [refresh] at h
  cases hg : get_data stream <;> rw [hg] at h
  case seekForever => simp at h
  case checksumFail r => simp at h
  case ok pdu r =>
    cases hp : parse_pdu pdu data <;> simp [hp] at h
    case ok d0 =>
      obtain ⟨h1, _⟩ := h
      exact h1 ▸ parse_pdu_preserves_keys pdu data d0 hp k hk

/-- Witness for `refresh_ok_preserves_keys`: refreshing over `burstA` from a
dict holding the key `OLD` keeps that key. -/
theorem refresh_ok_preserves_keys_inst :
    (dget [("OLD", "x"), ("PID", "0xA057"), ("AA", "1")] "OLD").isSome = true :=
  refresh_ok_preserves_keys burstA [("OLD", "x")]
    [("OLD", "x"), ("PID", "0xA057"), ("AA", "1")] [] (by decide) "OLD" (by decide)

/-- Claim C5 fails on the code.  A stream that yields one non-`PID` line and
then only empty (timeout) reads makes `refresh` spin in the seek loop
forever — modelled by the `seekForever` outcome — instead of terminating
with a transport-timeout failure. -/
theorem refresh_no_pid_cex :
    refresh [asciiL "V\t12\r\n"] [] = Outcome.seekForever := by decide

/-- Claim C5 amended: when the line source never yields a `PID`-prefixed
record before timing out, the seek loop of `_get_data` never exits (empty
reads do not start with `b'PID'` and are simply discarded), so `refresh`
never terminates and no transport-timeout failure is signalled. -/
theorem refresh_no_pid_seeks_forever :
    ∀ (stream : List Line) (data : FieldRecord),
      (∀ f ∈ stream, bstartswith pidBytes f = false) →
      refresh stream data = Outcome.seekForever := by
  intro stream data h
  rw [refresh, get_data, seekStart_eq_none stream h]

/-- Witness for `refresh_no_pid_seeks_forever` at a one-line stream. -/
theorem refresh_no_pid_seeks_forever_inst :
    refresh [asciiL "V\t1\r\n"] [] = Outcome.seekForever :=
  refresh_no_pid_seeks_forever [asciiL "V\t1\r\n"] [] (by decide)

theorem splitTab_ne_nil (l : List Char) : splitTab l ≠ [] := by
  cases l with
  | nil => simp [splitTab]
  | cons c rest =>
    by_cases hc : c = '\t'
    · simp [splitTab, hc]
    · rw [splitTab, if_neg hc]
      cases hs : splitTab rest <;> simp

theorem splitTab_length (l : List Char) :
    (splitTab l).length = l.count '\t' + 1 := by
  induction l with
  | nil => simp [splitTab]
  | cons c rest ih =>
    by_cases hc : c = '\t'
    · simp [splitTab, hc, List.count_cons, ih]
    · rw [splitTab, if_neg hc]
      cases hs : splitTab rest with
      | nil => exact absurd hs (splitTab_ne_nil rest)
      | cons s ss =>
        have h2 : ss.length + 1 = rest.count '\t' + 1 := by
          have h3 := ih
          rw [hs] at h3
          simpa using h3
        have hcc : (c == '\t') = false := by simp [hc]
        simp [List.count_cons, hcc]
        omega

/-- Claim C4 fails on the code.  A checksummed PDU containing the line
`A<TAB>b<TAB>c` makes `key, value = key_value.split('\t')` raise
`ValueError` (the split yields three parts), so parsing an accepted PDU can
itself fail; the dict keeps the partial updates made before the bad line. -/
theorem parse_pdu_two_tab_cex :
    check_frame_checksum pduTwoTab = true
    ∧ parse_pdu pduTwoTab [] = Except.error [("PID", "0x1")] := by decide

/-- Claim C4 amended: parsing is total on PDUs in which every line's
stripped decoded text contains at most one tab — a no-tab line is skipped
rather than failing — and every non-`Checksum`-prefixed line with exactly
one tab contributes its key to the resulting Field Record; only a line with
two or more tabs makes the parse itself fail. -/
theorem parse_pdu_total_one_tab :
    ∀ (frames : List Line) (data : FieldRecord),
      (∀ f ∈ frames, (decodeUtf8Ignore (bstrip f)).count '\t' ≤ 1) →
      ∃ d, parse_pdu frames data = Except.ok d
        ∧ (∀ k, (dget data k).isSome = true → (dget d k).isSome = true)
        ∧ ∀ f ∈ frames, bstartswith checksumBytes f = false →
            (decodeUtf8Ignore (bstrip f)).count '\t' = 1 →
            (dget d (keyOf f)).isSome = true := by
  intro frames
  induction frames with
  | nil =>
    intro data _
    exact ⟨data, rfl, fun _ hk => hk, by simp⟩
  | cons f rest ih =>
    intro data hcnt
    by_cases hck : bstartswith checksumBytes f = true
    · obtain ⟨d, hok, hpres, hall⟩ := ih data (fun g hg => hcnt g (by simp [hg]))
      refine ⟨d, ?_, hpres, ?_⟩
      · simp only [parse_pdu, hck, if_true]
        exact hok
      · intro g hg hgck hgcnt
        rcases List.mem_cons.mp hg with rfl | hg2
        · rw [hck] at hgck
          exact absurd hgck (by simp)
        · exact hall g hg2 hgck hgcnt
    · by_cases htab : '\t' ∈ decodeUtf8Ignore (bstrip f)
      · have hone : (decodeUtf8Ignore (bstrip f)).count '\t' = 1 := by
          have hle := hcnt f (by simp)
          have hne : (decodeUtf8Ignore (bstrip f)).count '\t' ≠ 0 := by
            intro h0
            exact absurd htab (List.count_eq_zero.mp h0)
          omega
        have hlen : (splitTab (decodeUtf8Ignore (bstrip f))).length = 2 := by
          rw [splitTab_length, hone]
        obtain ⟨k0, v0, hs⟩ := List.length_eq_two.mp hlen
        obtain ⟨d, hok, hpres, hall⟩ :=
          ih (dinsert data (String.mk k0) (String.mk v0))
            (fun g hg => hcnt g (by simp [hg]))
        refine ⟨d, ?_, ?_, ?_⟩
        · simp only [parse_pdu, hck, if_false, htab, if_true, hs,
            Bool.false_eq_true]
          exact hok
        · intro k hk
          exact hpres k (dget_dinsert_isSome data _ _ k hk)
        · intro g hg hgck hgcnt
          rcases List.mem_cons.mp hg with rfl | hg2
          · have hkey : keyOf g = String.mk k0 := by
              rw [keyOf, hs]
              rfl
            rw [hkey]
            refine hpres _ ?_
            rw [dget_dinsert_self]
            rfl
          · exact hall g hg2 hgck hgcnt
      · obtain ⟨d, hok, hpres, hall⟩ := ih data (fun g hg => hcnt g (by simp [hg]))
        refine ⟨d, ?_, hpres, ?_⟩
        · simp only [parse_pdu, hck, if_false, htab, Bool.false_eq_true]
          exact hok
        · intro g hg hgck hgcnt
          rcases List.mem_cons.mp hg with rfl | hg2
          · have hmem : '\t' ∈ decodeUtf8Ignore (bstrip g) := by
              by_contra hno
              rw [List.count_eq_zero.mpr hno] at hgcnt
              exact absurd hgcnt (by simp)
            exact absurd hmem htab
          · exact hall g hg2 hgck hgcnt

/-- Witness for `parse_pdu_total_one_tab` on the concrete burst `burstA`. -/
theorem parse_pdu_total_one_tab_inst :
    ∃ d, parse_pdu burstA [] = Except.ok d
      ∧ (∀ k, (dget [] k).isSome = true → (dget d k).isSome = true)
      ∧ ∀ f ∈ burstA, bstartswith checksumBytes f = false →
          (decodeUtf8Ignore (bstrip f)).count '\t' = 1 →
          (dget d (keyOf f)).isSome = true :=
  parse_pdu_total_one_tab burstA [] (by decide)

theorem pyFloat_zero : pyFloat "0" = some 0 := by
  have h1 : pyFloat "0" =
      some (((0 : Nat) : ℚ) + ((0 : Nat) : ℚ) / 10 ^ (0 : Nat)) := rfl
  rw [h1]
  norm_num

theorem mV_zero : mV "0" = some 0 := by
  rw [mV, pyFloat_zero]
  simp

theorem mem_tab_of_splitTab_pair (l : List Char) (k v : List Char)
    (hs : splitTab l = [k, v]) : '\t' ∈ l := by
  have hlen := splitTab_length l
  rw [hs] at hlen
  by_contra hno
  rw [List.count_eq_zero.mpr hno] at hlen
  exact absurd hlen (by simp)

theorem parse_pdu_cons_skip (f : Line) (rest : List Line) (data : FieldRecord)
    (hck : bstartswith checksumBytes f = true) :
    parse_pdu (f :: rest) data = parse_pdu rest data := by
  simp [parse_pdu, hck]

theorem parse_pdu_cons_insert (f : Line) (rest : List Line) (data : FieldRecord)
    (k v : List Char) (hck : bstartswith checksumBytes f = false)
    (hs : splitTab (decodeUtf8Ignore (bstrip f)) = [k, v]) :
    parse_pdu (f :: rest) data =
      parse_pdu rest (dinsert data (String.mk k) (String.mk v)) := by
  have htab : '\t' ∈ decodeUtf8Ignore (bstrip f) :=
    mem_tab_of_splitTab_pair _ k v hs
  simp [parse_pdu, hck, htab, hs]

/-- Claim C6 fails on the code: `OR` value `"0x00000011"` has bits `0x01`
(`No input power`) and `0x10` (`Protection active`) set; `Remote input` is
bit `0x08`, which is not set in `0x11`. -/
theorem off_reason_0x11_cex :
    off_reason [("OR", "0x00000011")] = ["No input power", "Protection active"]
    ∧ "Remote input" ∉ off_reason [("OR", "0x00000011")] := by decide

/-- Claim C6 amended: for every Field Record whose `OR` value is
`"0x00000011"`, `off_reason` returns exactly the two reasons
`No input power` and `Protection active`. -/
theorem off_reason_0x11_decodes :
    ∀ data : FieldRecord, dget data "OR" = some "0x00000011" →
      off_reason data = ["No input power", "Protection active"] := by
  intro data h
  have hd : dgetD data "OR" "0" = "0x00000011" := by rw [dgetD, h]; rfl
  rw [off_reason, hd]
  decide

/-- Witness for `off_reason_0x11_decodes` at the one-key record. -/
theorem off_reason_0x11_decodes_inst :
    off_reason [("OR", "0x00000011")] =
      ["No input power", "Protection active"] :=
  off_reason_0x11_decodes [("OR", "0x00000011")] (by decide)

/-- Claim C7: a Field Record lacking key `V` yields `battery_volts` equal to
zero (the missing key defaults to the string `"0"` before the
divide-by-1000 conversion) rather than failing, and the accessor fails only
when `V` is present but its value does not parse as a number. -/
theorem battery_volts_missing_key_defaults :
    (∀ data : FieldRecord, dget data "V" = none → battery_volts data = some 0)
    ∧ ∀ data : FieldRecord, battery_volts data = none →
        ∃ v, dget data "V" = some v ∧ pyFloat v = none := by
  constructor
  · intro data h
    have hd : dgetD data "V" "0" = "0" := by rw [dgetD, h]; rfl
    rw [battery_volts, hd, mV_zero]
  · intro data h
    rw [battery_volts] at h
    cases hv : dget data "V" with
    | none =>
      have hd : dgetD data "V" "0" = "0" := by rw [dgetD, hv]; rfl
      rw [hd, mV_zero] at h
      exact absurd h (by simp)
    | some v =>
      have hd : dgetD data "V" "0" = v := by rw [dgetD, hv]; rfl
      rw [hd] at h
      refine ⟨v, rfl, ?_⟩
      cases hp : pyFloat v with
      | none => rfl
      | some q =>
        rw [mV, hp] at h
        exact absurd h (by simp)

/-- Witness for `battery_volts_missing_key_defaults`: the empty record reads
as zero volts, and a record with non-numeric `V` yields the parse failure. -/
theorem battery_volts_missing_key_defaults_inst :
    battery_volts [] = some 0
    ∧ ∃ v, dget [("V", "abc")] "V" = some v ∧ pyFloat v = none :=
  ⟨battery_volts_missing_key_defaults.1 [] (by decide),
   battery_volts_missing_key_defaults.2 [("V", "abc")] (by decide)⟩

/-- Claim C8: an `MPPT` integer code outside `{0, 1, 2}` makes
`device_MPPT_state` fail (the `MPPTState` constructor raises `ValueError`),
while a `CS` integer code outside the `cs_states` table makes
`state_of_operation` return the sentinel `"Unknown"` rather than fail. -/
theorem mppt_fails_cs_unknown :
    (∀ (data : FieldRecord) (v : String) (n : Int),
        dget data "MPPT" = some v → pyInt v = some n →
        n ≠ 0 → n ≠ 1 → n ≠ 2 → device_MPPT_state data = none)
    ∧ ∀ (data : FieldRecord) (v : String) (n : Int),
        dget data "CS" = some v → pyInt v = some n →
        cs_states.lookup n = none → state_of_operation data = some "Unknown" := by
  constructor
  · intro data v n hv hn h0 h1 h2
    have hd : dgetD data "MPPT" "0" = v := by rw [dgetD, hv]; rfl
    rw [device_MPPT_state, hd, hn]
    simp [MPPTState.ofInt, h0, h1, h2]
  · intro data v n hv hn hlk
    have hd : dgetD data "CS" "0" = v := by rw [dgetD, hv]; rfl
    rw [state_of_operation, hd, hn]
    simp [hlk]

/-- Witness for `mppt_fails_cs_unknown` with `MPPT` code `5` and `CS`
code `7`. -/
theorem mppt_fails_cs_unknown_inst :
    device_MPPT_state [("MPPT", "5")] = none
    ∧ state_of_operation [("CS", "7")] = some "Unknown" :=
  ⟨mppt_fails_cs_unknown.1 [("MPPT", "5")] "5" 5 (by decide) (by decide)
      (by decide) (by decide) (by decide),
   mppt_fails_cs_unknown.2 [("CS", "7")] "7" 7 (by decide) (by decide)
      (by decide)⟩

/-- Claim C9 fails on the code: the exclusion test is a raw byte-prefix
check, not a key-equality check.  In the accepted PDU `pduChk`, the line
`b' Checksum\t9\r\n'` (leading space) has key `Checksum` after stripping yet
is inserted into the mapping, while the line `b'Checksumfoo\tz\r\n'` has key
`Checksumfoo` yet is excluded. -/
theorem checksum_exclusion_cex :
    check_frame_checksum pduChk = true
    ∧ parse_pdu pduChk [] = Except.ok [("PID", "0x1"), ("Checksum", "9")]
    ∧ dget [("PID", "0x1"), ("Checksum", "9")] "Checksum" = some "9"
    ∧ dget [("PID", "0x1"), ("Checksum", "9")] "Checksumfoo" = none := by
  decide

/-- Claim C9 amended: the parser excludes a line exactly when its raw bytes
start with `Checksum` (tested before stripping): dropping all such lines
leaves the parse result unchanged; every non-excluded line splitting into
exactly (key, value) on one tab is inserted; and the bytes of a
`Checksum`-prefixed line still contribute to the checksum sum — prepending
one whose byte sum is nonzero mod 256 flips an accepting verdict. -/
theorem checksum_exclusion_raw_only :
    (∀ (frames : List Line) (data : FieldRecord),
        parse_pdu (frames.filter fun f => !bstartswith checksumBytes f) data =
          parse_pdu frames data)
    ∧ (∀ (f : Line) (frames : List Line),
        bstartswith checksumBytes f = true → f.sum % 256 ≠ 0 →
        check_frame_checksum frames = true →
        check_frame_checksum (f :: frames) = false)
    ∧ ∀ (f : Line) (rest : List Line) (data : FieldRecord) (k v : List Char),
        bstartswith checksumBytes f = false →
        splitTab (decodeUtf8Ignore (bstrip f)) = [k, v] →
        parse_pdu (f :: rest) data =
          parse_pdu rest (dinsert data (String.mk k) (String.mk v)) := by
  refine ⟨?_, ?_, ?_⟩
  · intro frames
    induction frames with
    | nil => intro data; rfl
    | cons f rest ih =>
      intro data
      by_cases hck : bstartswith checksumBytes f = true
      · simp only [List.filter_cons, hck, Bool.not_true, Bool.false_eq_true,
          if_false]
        rw [parse_pdu_cons_skip f rest data hck]
        exact ih data
      · have hb : bstartswith checksumBytes f = false := by
          revert hck
          cases bstartswith checksumBytes f <;> simp
        simp only [List.filter_cons, hb, Bool.not_false, if_true]
        by_cases htab : '\t' ∈ decodeUtf8Ignore (bstrip f)
        · simp only [parse_pdu, hb, Bool.false_eq_true, if_false, htab, if_true]
          cases hsp : splitTab (decodeUtf8Ignore (bstrip f)) with
          | nil => rfl
          | cons a t =>
            cases t with
            | nil => rfl
            | cons b t2 =>
              cases t2 with
              | nil => exact ih _
              | cons c t3 => rfl
        · simp only [parse_pdu, hb, Bool.false_eq_true, if_false, htab]
          exact ih data
  · intro f frames hck hsum hchk
    rw [check_frame_checksum_eq] at hchk
    have h0 : frames.flatten.sum % 256 = 0 := by simpa using hchk
    rw [check_frame_checksum_eq]
    simp only [List.flatten_cons, List.sum_append]
    have hmod : (f.sum + frames.flatten.sum) % 256 = f.sum % 256 := by omega
    rw [hmod]
    simpa using hsum
  · intro f rest data k v hck hs
    exact parse_pdu_cons_insert f rest data k v hck hs

/-- Witness for `checksum_exclusion_raw_only`: a nonzero-sum checksum line
flips `burstA`'s accepting verdict, and a plain field line steps the parse
by inserting its key and value. -/
theorem checksum_exclusion_raw_only_inst :
    check_frame_checksum (asciiL "Checksum\tQ\r\n" :: burstA) = false
    ∧ parse_pdu [asciiL "AA\t1\r\n"] [] =
        parse_pdu [] (dinsert [] (String.mk ['A', 'A']) (String.mk ['1'])) :=
  ⟨checksum_exclusion_raw_only.2.1 (asciiL "Checksum\tQ\r\n") burstA
      (by decide) (by decide) (by decide),
   checksum_exclusion_raw_only.2.2 (asciiL "AA\t1\r\n") [] [] ['A', 'A'] ['1']
      (by decide) (by decide)⟩
